import Mathlib

/-!
Verification of the Rik backend's streak and insight computations.

Shallow embedding of the analytical core of `backend/server.py`:

* `parseDate` models `datetime.strptime(s, "%Y-%m-%d").date()`: the year is
  exactly four digits, month and day are one or two digits, the separator is a
  literal `-`, the whole string must be consumed, and the resulting calendar
  date must be valid (`datetime` rejects year 0 and out-of-range days).
  Calendar dates are represented by their day number (days-from-civil), which
  is order- and difference-isomorphic to Python `date` objects, so
  `date` equality becomes `Int` equality and `timedelta(days=k)` subtraction
  becomes integer subtraction.
* `formatDate` models `date.strftime("%Y-%m-%d")` (zero-padded fields).
* `computeStreak` models the per-habit loop of `get_habit_streaks`
  (server.py lines 747-757); a date that fails to parse raises, which the
  embedding models as `Except.error`.
* `computeInsights` / `getUserInsights` model `get_user_insights`
  (server.py lines 586-642); the Mongo `$gte` string filters of the three
  queries become `List.filter` with byte-wise string comparison.  The fetch
  caps (`to_list(500)` / `to_list(7)`) are not modelled: the claims quantify
  over the fetched collections.
* `logHabit` models the `log_habit` upsert (server.py lines 706-729) over a
  list-backed document store: `find_one` is `List.find?`, `insert_one`
  appends, `update_one` rewrites the first matching record.
-/

/-- Test for `'0'..'9'`, the digits accepted by `strptime`'s `%Y`/`%m`/`%d`. -/
def isDigitChar (c : Char) : Bool := 48 ≤ c.toNat && c.toNat ≤ 57

/-- Numeric value of a digit character. -/
def digitVal (c : Char) : Nat := c.toNat - 48

/-- Split a character list at every `'-'`, like the literal `-` separators in
the `"%Y-%m-%d"` format string. -/
def splitDash : List Char → List (List Char)
  | [] => [[]]
  | c :: rest =>
    if c = '-' then [] :: splitDash rest
    else
      match splitDash rest with
      | [] => [[c]]
      | f :: fs => (c :: f) :: fs

/-- Directive `%Y`: exactly four digits. -/
def parseYear : List Char → Option Nat
  | [a, b, c, d] =>
    if isDigitChar a && isDigitChar b && isDigitChar c && isDigitChar d then
      some (digitVal a * 1000 + digitVal b * 100 + digitVal c * 10 + digitVal d)
    else none
  | _ => none

/-- Directives `%m` / `%d`: one or two digits. -/
def parse2 : List Char → Option Nat
  | [a] => if isDigitChar a then some (digitVal a) else none
  | [a, b] => if isDigitChar a && isDigitChar b then some (digitVal a * 10 + digitVal b) else none
  | _ => none

/-- Gregorian leap-year rule, as in Python's `calendar`/`datetime`. -/
def isLeap (y : Nat) : Bool := y % 4 = 0 && (y % 100 ≠ 0 || y % 400 = 0)

/-- Number of days in a month, as validated by `datetime.date`. -/
def daysInMonth (y m : Nat) : Nat :=
  if m = 2 then (if isLeap y then 29 else 28)
  else if m = 4 ∨ m = 6 ∨ m = 9 ∨ m = 11 then 30
  else 31

/-- Day number of the civil date `(y, m, d)` (days-from-civil, epoch
`0000-03-01`); Python `date` objects are in order- and difference-preserving
bijection with these numbers. -/
def daysFromCivil (y m d : Nat) : Int :=
  let y' : Int := if m ≤ 2 then (y : Int) - 1 else (y : Int)
  let era : Int := y' / 400
  let yoe : Int := y' - era * 400
  let mp : Int := if m > 2 then (m : Int) - 3 else (m : Int) + 9
  let doy : Int := (153 * mp + 2) / 5 + (d : Int) - 1
  let doe : Int := yoe * 365 + yoe / 4 - yoe / 100 + doy
  era * 146097 + doe

/-- Inverse of `daysFromCivil`: the civil date `(y, m, d)` of a day number. -/
def civilFromDays (z : Int) : Nat × Nat × Nat :=
  let era : Int := (if 0 ≤ z then z else z - 146096) / 146097
  let doe : Int := z - era * 146097
  let yoe : Int := (doe - doe / 1460 + doe / 36524 - doe / 146096) / 365
  let y : Int := yoe + era * 400
  let doy : Int := doe - (365 * yoe + yoe / 4 - yoe / 100)
  let mp : Int := (5 * doy + 2) / 153
  let d : Int := doy - (153 * mp + 2) / 5 + 1
  let m : Int := if mp < 10 then mp + 3 else mp - 9
  ((if m ≤ 2 then y + 1 else y).toNat, m.toNat, d.toNat)

/-- Model of `datetime.strptime(s, "%Y-%m-%d").date()` as a day number: `none` models
the `ValueError` raised on a malformed or invalid calendar-date string. -/
def parseDate (s : String) : Option Int :=
  match splitDash s.data with
  | [ys, ms, ds] =>
    match parseYear ys, parse2 ms, parse2 ds with
    | some y, some m, some d =>
      if 1 ≤ y ∧ 1 ≤ m ∧ m ≤ 12 ∧ 1 ≤ d ∧ d ≤ daysInMonth y m then
        some (daysFromCivil y m d)
      else none
    | _, _, _ => none
  | _ => none

/-- Two-digit zero-padded decimal rendering (`%m`, `%d`). -/
def pad2 (n : Nat) : List Char := [Char.ofNat (48 + n / 10 % 10), Char.ofNat (48 + n % 10)]

/-- Four-digit zero-padded decimal rendering (`%Y`). -/
def pad4 (n : Nat) : List Char :=
  [Char.ofNat (48 + n / 1000 % 10), Char.ofNat (48 + n / 100 % 10),
   Char.ofNat (48 + n / 10 % 10), Char.ofNat (48 + n % 10)]

/-- Model of `date.strftime("%Y-%m-%d")` applied to a day number. -/
def formatDate (z : Int) : String :=
  let c := civilFromDays z
  String.mk (pad4 c.1 ++ '-' :: pad2 c.2.1 ++ '-' :: pad2 c.2.2)

/-- Byte-wise lexicographic `lo ≤ hi` on character lists: the order Mongo's
`$gte` uses on ASCII date strings. -/
def strLeAux : List Char → List Char → Bool
  | [], _ => true
  | _ :: _, [] => false
  | a :: as, b :: bs =>
    if a.toNat < b.toNat then true
    else if b.toNat < a.toNat then false
    else strLeAux as bs

/-- The Mongo filter `{"date": {"$gte": lo}}` applied to the string `d`. -/
def dateGe (d lo : String) : Bool := strLeAux lo.data d.data

/-- Error raised by `strptime` (a `ValueError`), propagating out of the streak loop. -/
inductive StreakError where
  | parseError (record : String)
  deriving DecidableEq, Repr

/-- The `for log in logs` loop of `get_habit_streaks` (server.py 750-756):
parse the record's date, compare with `today - timedelta(days=streak)`,
increment on equality, break on mismatch; a parse failure aborts. -/
def streakLoop (today : Int) (streak : Nat) : List String → Except StreakError Nat
  | [] => .ok streak
  | log :: rest =>
    match parseDate log with
    | none => .error (.parseError log)
    | some logDate =>
      if logDate = today - (streak : Int) then streakLoop today (streak + 1) rest
      else .ok streak

/-- The per-habit streak computation of `get_habit_streaks` (server.py
747-757): `streak = 0`, then the loop (the `if logs:` guard is equivalent to
running the loop on the empty list). -/
def computeStreak (today : Int) (logs : List String) : Except StreakError Nat :=
  streakLoop today 0 logs

/-- The streak algorithm exactly as the spec words it, on already-parsed
dates (spec §4.1): used as the refinement reference for `computeStreak`. -/
def specStreakAux (today : Int) (streak : Nat) : List Int → Nat
  | [] => streak
  | d :: rest =>
    if d = today - (streak : Int) then specStreakAux today (streak + 1) rest
    else streak

/-- Spec §4.1 contract: `streak = 0`, then compare each log date with
`today − streak days`, increment on equality, stop at the first mismatch. -/
def specStreak (today : Int) (logs : List Int) : Nat := specStreakAux today 0 logs

/-- A fetched habit-log document as `get_user_insights` reads it
(`date` plus the `completed` flag tested by `h.get('completed')`). -/
structure InsHabitLog where
  date : String
  completed : Bool
  deriving DecidableEq, Repr

/-- A fetched schedule document as `get_user_insights` reads it. -/
structure InsSched where
  date : String
  completed : Bool
  deriving DecidableEq, Repr

/-- A fetched `DailyAnalysis` document as `get_user_insights` reads it
(`overall_score` defaults to 0 in the model, so the field is total). -/
structure InsAnalysis where
  date : String
  overall_score : Int
  deriving DecidableEq, Repr

/-- One entry of the returned `insights` list (the `description` string,
pure display text, is not modelled). Values are exact rationals standing for
the Python floats. -/
structure Insight where
  type : String
  title : String
  value : ℚ
  deriving DecidableEq, Repr

/-- Model of `sum(a.get('overall_score', 0) for a in analyses) / len(analyses) if analyses
else 0` (server.py line 609). -/
def avgScore (analyses : List InsAnalysis) : ℚ :=
  if analyses.length ≠ 0 then
    ((analyses.map fun a => (a.overall_score : ℚ)).sum) / (analyses.length : ℚ)
  else 0

/-- The pure aggregation of `get_user_insights` (server.py lines 604-642):
counts, rates, average score, then the three conditional appends in order. -/
def computeInsights (habit_logs : List InsHabitLog) (schedule_logs : List InsSched)
    (analyses : List InsAnalysis) : List Insight :=
  let habits_completed := (habit_logs.filter fun h => h.completed).length
  let habits_total := habit_logs.length
  let tasks_completed := (schedule_logs.filter fun s => s.completed).length
  let tasks_total := schedule_logs.length
  let avg_score := avgScore analyses
  (if habits_total > 0 then
      [⟨"pattern", "Habit Completion Rate", ((habits_completed : ℚ) / (habits_total : ℚ)) * 100⟩]
    else []) ++
  (if tasks_total > 0 then
      [⟨"pattern", "Schedule Follow-through", ((tasks_completed : ℚ) / (tasks_total : ℚ)) * 100⟩]
    else []) ++
  (if avg_score > 0 then
      [⟨if avg_score ≥ 70 then "achievement" else "warning", "Weekly Average Score", avg_score⟩]
    else [])

/-- Model of `week_ago = (datetime.now() - timedelta(days=7)).strftime("%Y-%m-%d")`
(server.py line 587), with `today` the anchor day number. -/
def weekAgo (today : Int) : String := formatDate (today - 7)

/-- The habit-log query `{"date": {"$gte": week_ago}}` (server.py 589-592). -/
def windowHabitLogs (today : Int) (habit_logs : List InsHabitLog) : List InsHabitLog :=
  habit_logs.filter fun h => dateGe h.date (weekAgo today)

/-- The schedule query `{"date": {"$gte": week_ago}}` (server.py 594-597). -/
def windowSched (today : Int) (schedule_logs : List InsSched) : List InsSched :=
  schedule_logs.filter fun s => dateGe s.date (weekAgo today)

/-- The analysis query `{"date": {"$gte": week_ago}}` (server.py 599-602). -/
def windowAnalyses (today : Int) (analyses : List InsAnalysis) : List InsAnalysis :=
  analyses.filter fun a => dateGe a.date (weekAgo today)

/-- Model of `get_user_insights` end to end: the three windowed fetches followed by the
pure aggregation, over the user's stored collections. -/
def getUserInsights (today : Int) (habit_logs : List InsHabitLog)
    (schedule_logs : List InsSched) (analyses : List InsAnalysis) : List Insight :=
  computeInsights (windowHabitLogs today habit_logs) (windowSched today schedule_logs)
    (windowAnalyses today analyses)

/-- A stored habit-log document (`HabitLog` pydantic model, server.py 90-98);
`created_at` is an opaque timestamp. -/
structure HabitLogRec where
  id : String
  user_id : String
  habit_name : String
  habit_type : String
  completed : Bool
  date : String
  notes : Option String
  created_at : Nat
  deriving DecidableEq, Repr

/-- The request body (`HabitLogCreate` pydantic model, server.py 100-106). -/
structure HabitLogCreate where
  user_id : String
  habit_name : String
  habit_type : String
  completed : Bool
  date : String
  notes : Option String
  deriving DecidableEq, Repr

/-- A stored user document, restricted to the fields `log_habit` touches. -/
structure UserRec where
  id : String
  points : Int
  deriving DecidableEq, Repr

/-- The document store as `log_habit` sees it. -/
structure Store where
  habit_logs : List HabitLogRec
  users : List UserRec
  deriving DecidableEq, Repr

/-- Model of Mongo `update_one`: rewrite the first document matching the filter. -/
def updateFirst (p : α → Bool) (f : α → α) : List α → List α
  | [] => []
  | x :: xs => if p x then f x :: xs else x :: updateFirst p f xs

/-- The `find_one` filter of `log_habit` (server.py 708-712). -/
def tripleMatch (h : HabitLogCreate) (r : HabitLogRec) : Bool :=
  r.user_id == h.user_id && r.habit_name == h.habit_name && r.date == h.date

/-- Model of `log_habit` (server.py 706-729): upsert by (user_id, habit_name, date);
`newId`/`now` stand for the freshly generated `uuid4` and `utcnow` of the
inserted record. Returns the new store state. -/
def logHabit (db : Store) (h : HabitLogCreate) (newId : String) (now : Nat) : Store :=
  match db.habit_logs.find? (tripleMatch h) with
  | some existing =>
    { db with
      habit_logs :=
        updateFirst (fun r => r.id == existing.id)
          (fun r => { r with completed := h.completed, notes := h.notes }) db.habit_logs }
  | none =>
    let inserted : HabitLogRec :=
      ⟨newId, h.user_id, h.habit_name, h.habit_type, h.completed, h.date, h.notes, now⟩
    { habit_logs := db.habit_logs ++ [inserted]
      users :=
        if h.completed then
          updateFirst (fun u => u.id == h.user_id) (fun u => { u with points := u.points + 5 })
            db.users
        else db.users }

/-- The (user_id, habit_name, date) key of a stored habit log. -/
def logKey (r : HabitLogRec) : String × String × String := (r.user_id, r.habit_name, r.date)

/-- Spec §3 uniqueness invariant: at most one habit log per
(user_id, habit_name, date). -/
def UniqueTriple (logs : List HabitLogRec) : Prop := (logs.map logKey).Nodup

/-- Spec §8 scenario input: ten habit logs in the window, seven completed. -/
def scenarioHabitLogs : List InsHabitLog :=
  [⟨"2025-07-15", true⟩, ⟨"2025-07-15", true⟩, ⟨"2025-07-15", true⟩, ⟨"2025-07-15", true⟩,
   ⟨"2025-07-15", true⟩, ⟨"2025-07-15", true⟩, ⟨"2025-07-15", true⟩, ⟨"2025-07-15", false⟩,
   ⟨"2025-07-15", false⟩, ⟨"2025-07-15", false⟩]

/-- Spec §8 scenario input: five schedule items in the window, all completed. -/
def scenarioSched : List InsSched :=
  [⟨"2025-07-15", true⟩, ⟨"2025-07-15", true⟩, ⟨"2025-07-15", true⟩, ⟨"2025-07-15", true⟩,
   ⟨"2025-07-15", true⟩]

/-- Frame relation for the update path of `log_habit`: every field except
`completed` and `notes` is unchanged. -/
def frameEq (r r' : HabitLogRec) : Prop :=
  r'.id = r.id ∧ r'.user_id = r.user_id ∧ r'.habit_name = r.habit_name ∧
    r'.habit_type = r.habit_type ∧ r'.date = r.date ∧ r'.created_at = r.created_at

/-- Concrete store with one habit log and one user, for witnesses. -/
def sampleStore : Store :=
  ⟨[⟨"log1", "u1", "drink water", "build", true, "2025-07-15", none, 0⟩], [⟨"u1", 0⟩]⟩

/-- A submission for the same (user_id, habit_name, date) triple as the
stored log of `sampleStore`. -/
def sampleUpdate : HabitLogCreate :=
  ⟨"u1", "drink water", "build", false, "2025-07-15", some "skipped"⟩

/-- Helper: when every record's date parses, the raising loop agrees with the
spec's pure loop at every accumulator value. -/
theorem streakLoop_parse (today : Int) (logs : List String) :
    ∀ (ds : List Int) (k : Nat), logs.mapM parseDate = some ds →
      streakLoop today k logs = .ok (specStreakAux today k ds) := by
  induction logs with
  | nil =>
    intro ds k h
    simp only [List.mapM_nil, Option.pure_def, Option.some.injEq] at h
    subst h
    rfl
  | cons log rest ih =>
    intro ds k h
    rw [List.mapM_cons] at h
    cases hp : parseDate log with
    | none => simp [hp] at h
    | some d =>
      simp only [hp, Option.pure_def, Option.bind_eq_bind, Option.bind_eq_some,
        Option.some.injEq] at h
      obtain ⟨d', rfl, a, ha, rfl⟩ := h
      simp only [streakLoop, specStreakAux, hp]
      split
      · exact ih a (k + 1) ha
      · rfl

/-- Helper: the loop's result never exceeds the accumulator plus the number of
remaining records. -/
theorem streakLoop_le (today : Int) (logs : List String) :
    ∀ (k n : Nat), streakLoop today k logs = .ok n → n ≤ k + logs.length := by
  induction logs with
  | nil =>
    intro k n h
    simp only [streakLoop, Except.ok.injEq] at h
    omega
  | cons log rest ih =>
    intro k n h
    simp only [streakLoop] at h
    cases hp : parseDate log with
    | none => simp [hp] at h
    | some d =>
      simp only [hp] at h
      by_cases hd : d = today - (k : Int)
      · rw [if_pos hd] at h
        have := ih (k + 1) n h
        simp only [List.length_cons]
        omega
      · rw [if_neg hd] at h
        simp only [Except.ok.injEq] at h
        simp only [List.length_cons]
        omega

/-- Helper: a `parseError` out of the loop names a record of the input whose
date string does not parse. -/
theorem streakLoop_error (today : Int) (logs : List String) :
    ∀ (k : Nat) (s : String), streakLoop today k logs = .error (.parseError s) →
      s ∈ logs ∧ parseDate s = none := by
  induction logs with
  | nil => intro k s h; simp [streakLoop] at h
  | cons log rest ih =>
    intro k s h
    simp only [streakLoop] at h
    cases hp : parseDate log with
    | none =>
      simp only [hp, Except.error.injEq, StreakError.parseError.injEq] at h
      subst h
      exact ⟨List.mem_cons_self _ _, hp⟩
    | some d =>
      simp only [hp] at h
      by_cases hd : d = today - (k : Int)
      · rw [if_pos hd] at h
        obtain ⟨hmem, hparse⟩ := ih (k + 1) s h
        exact ⟨List.mem_cons_of_mem _ hmem, hparse⟩
      · rw [if_neg hd] at h
        exact absurd h (by simp)

/-- C1: on well-formed records the streak computation returns exactly the
value of the spec's algorithm (start at 0, compare each log with
`today − streak` days, increment on match, stop at the first mismatch); the
scenario 2025-07-15/14/12 anchored at 2025-07-15 is evaluated in the witness. -/
theorem computeStreak_refines_spec (today : Int) (logs : List String) (ds : List Int)
    (hp : logs.mapM parseDate = some ds) :
    computeStreak today logs = .ok (specStreak today ds) :=
  streakLoop_parse today logs ds 0 hp

/-- C1 witness: the spec's scenario — logs 2025-07-15, 2025-07-14, 2025-07-12
with anchor 2025-07-15 yield a streak of 2 (the gap at 2025-07-13 breaks it). -/
theorem computeStreak_refines_spec_witness :
    computeStreak (daysFromCivil 2025 7 15) ["2025-07-15", "2025-07-14", "2025-07-12"] =
      .ok 2 := by
  have h := computeStreak_refines_spec (daysFromCivil 2025 7 15)
    ["2025-07-15", "2025-07-14", "2025-07-12"] [739752, 739751, 739749] (by decide)
  rw [h]
  rfl

/-- C4: if no supplied record carries today's date, the streak is 0 no matter
how many consecutive completed days precede today. -/
theorem computeStreak_zero_of_today_missing (today : Int) (logs : List String) (ds : List Int)
    (hp : logs.mapM parseDate = some ds) (hnot : today ∉ ds) :
    computeStreak today logs = .ok 0 := by
  cases logs with
  | nil => rfl
  | cons log rest =>
    rw [List.mapM_cons] at hp
    cases hq : parseDate log with
    | none => simp [hq] at hp
    | some d =>
      simp only [hq, Option.pure_def, Option.bind_eq_bind, Option.bind_eq_some,
        Option.some.injEq] at hp
      obtain ⟨d', rfl, a, ha, rfl⟩ := hp
      have hd : d ≠ today := fun h => hnot (h ▸ List.mem_cons_self _ _)
      simp only [computeStreak, streakLoop, hq, Nat.cast_zero, sub_zero]
      rw [if_neg hd]

/-- C4 witness: a two-day completed run ending yesterday, anchored at
2025-07-15 (which is absent), yields streak 0. -/
theorem computeStreak_zero_of_today_missing_witness :
    computeStreak (daysFromCivil 2025 7 15) ["2025-07-14", "2025-07-13"] = .ok 0 :=
  computeStreak_zero_of_today_missing (daysFromCivil 2025 7 15) ["2025-07-14", "2025-07-13"]
    [739751, 739750] (by decide) (by decide)

/-- C6 counterexample: with a malformed record in scanning range the whole
computation aborts with the error — it does not skip the record and continue,
as dropping the record (second conjunct) would have returned a streak. -/
theorem computeStreak_aborts_on_malformed :
    computeStreak (daysFromCivil 2025 7 15) ["2025-07-15", "garbage", "2025-07-13"] =
        .error (.parseError "garbage") ∧
      computeStreak (daysFromCivil 2025 7 15) ["2025-07-15", "2025-07-13"] = .ok 1 :=
  ⟨rfl, rfl⟩

/-- C6 amended: a malformed date string reached by the scan makes the
computation fail with a `ParseError` naming that record, aborting the whole
computation rather than rejecting the single record; an error is only ever
raised for a genuinely malformed record of the input, and inputs whose dates
all parse never fail — the computation never silently miscounts. -/
theorem computeStreak_parse_failure (today : Int) (logs : List String) :
    (∀ ds, logs.mapM parseDate = some ds → ∃ n, computeStreak today logs = .ok n) ∧
    (∀ s, computeStreak today logs = .error (.parseError s) →
      s ∈ logs ∧ parseDate s = none) :=
  ⟨fun ds hds => ⟨specStreak today ds, streakLoop_parse today logs ds 0 hds⟩,
   fun s hs => streakLoop_error today logs 0 s hs⟩

/-- C6 witness: the error raised on a concrete malformed input names the
malformed record, which indeed fails to parse. -/
theorem computeStreak_parse_failure_witness :
    "garbage" ∈ ["2025-07-15", "garbage"] ∧ parseDate "garbage" = none :=
  (computeStreak_parse_failure (daysFromCivil 2025 7 15) ["2025-07-15", "garbage"]).2
    "garbage" rfl

/-- C10: the streak computation never returns more than the number of records
supplied, and since `get_habit_streaks` fetches at most 100 records per habit
(`to_list(100)`), every reported streak is at most 100. -/
theorem computeStreak_le_length (today : Int) (logs : List String) (n : Nat)
    (h : computeStreak today logs = .ok n) :
    0 ≤ n ∧ n ≤ logs.length ∧ (logs.length ≤ 100 → n ≤ 100) := by
  have hle := streakLoop_le today logs 0 n h
  omega

/-- C10 witness: a concrete three-record input returns a streak of 3, within
the record-count bound. -/
theorem computeStreak_le_length_witness :
    0 ≤ 3 ∧ 3 ≤ (["2025-07-15", "2025-07-14", "2025-07-13"] : List String).length ∧
      ((["2025-07-15", "2025-07-14", "2025-07-13"] : List String).length ≤ 100 → 3 ≤ 100) :=
  computeStreak_le_length (daysFromCivil 2025 7 15) ["2025-07-15", "2025-07-14", "2025-07-13"]
    3 rfl

/-- C8: empty input is not an error — the streak of an empty log list is 0 and
the insight aggregation of empty collections is the empty insight list. -/
theorem empty_input_not_error (today : Int) :
    computeStreak today [] = .ok 0 ∧ getUserInsights today [] [] [] = [] :=
  ⟨rfl, rfl⟩

/-- C8 witness: both empty-input facts at a concrete anchor day. -/
theorem empty_input_not_error_witness :
    computeStreak (daysFromCivil 2025 7 15) [] = .ok 0 ∧
      getUserInsights (daysFromCivil 2025 7 15) [] [] [] = [] :=
  empty_input_not_error (daysFromCivil 2025 7 15)

/-- C2 counterexample: anchored at 2025-07-15 the code counts a habit log
dated 2025-07-08 — the insight is emitted from it alone — even though
2025-07-08 is below `today − 6 days` (= 2025-07-09), so the claimed
trailing-7-day window would exclude it. -/
theorem window_counterexample :
    getUserInsights (daysFromCivil 2025 7 15) [InsHabitLog.mk "2025-07-08" true] [] [] =
        [Insight.mk "pattern" "Habit Completion Rate" 100] ∧
      dateGe "2025-07-08" (formatDate (daysFromCivil 2025 7 15 - 6)) = false := by
  constructor
  · have h1 : dateGe "2025-07-08" (formatDate (daysFromCivil 2025 7 15 - 7)) = true := by decide
    norm_num [getUserInsights, computeInsights, windowHabitLogs, windowSched, windowAnalyses,
      avgScore, weekAgo, h1]
  · decide

/-- C2 amended: a record contributes to the aggregation iff its date string is
`≥` the string for `today − 7 days` (an 8-calendar-day window inclusive of
today); the closing conjuncts check the boundary at the concrete anchor
2025-07-15, whose window starts at 2025-07-08. -/
theorem window_membership (today : Int) (hl : List InsHabitLog) (sl : List InsSched)
    (an : List InsAnalysis) (h : InsHabitLog) (s : InsSched) (a : InsAnalysis) :
    (h ∈ windowHabitLogs today hl ↔ h ∈ hl ∧ dateGe h.date (formatDate (today - 7)) = true) ∧
    (s ∈ windowSched today sl ↔ s ∈ sl ∧ dateGe s.date (formatDate (today - 7)) = true) ∧
    (a ∈ windowAnalyses today an ↔ a ∈ an ∧ dateGe a.date (formatDate (today - 7)) = true) ∧
    getUserInsights today hl sl an =
      computeInsights (windowHabitLogs today hl) (windowSched today sl)
        (windowAnalyses today an) ∧
    dateGe "2025-07-08" (formatDate (daysFromCivil 2025 7 15 - 7)) = true ∧
    dateGe "2025-07-07" (formatDate (daysFromCivil 2025 7 15 - 7)) = false := by
  refine ⟨?_, ?_, ?_, rfl, by decide, by decide⟩ <;>
    simp [windowHabitLogs, windowSched, windowAnalyses, weekAgo, List.mem_filter]

/-- C3 counterexample: one `DailyAnalysis` record lies inside the window
(second conjunct), yet no score insight is emitted — the output is empty —
because its `overall_score` is 0, so presence is not equivalent to a nonzero
count of analysis records. -/
theorem insights_presence_counterexample :
    getUserInsights (daysFromCivil 2025 7 15) [] [] [InsAnalysis.mk "2025-07-15" 0] = [] ∧
      windowAnalyses (daysFromCivil 2025 7 15) [InsAnalysis.mk "2025-07-15" 0] =
        [InsAnalysis.mk "2025-07-15" 0] := by
  constructor
  · have h1 : dateGe "2025-07-15" (formatDate (daysFromCivil 2025 7 15 - 7)) = true := by decide
    norm_num [getUserInsights, computeInsights, windowHabitLogs, windowSched, windowAnalyses,
      avgScore, weekAgo, h1]
  · decide

/-- C3 amended: insights appear in the fixed order habit rate, task rate,
score average; the habit insight is present iff at least one habit log is in
the window and the task insight iff at least one schedule item is, but the
score insight is present iff the average `overall_score` of the window's
analyses is positive (so it is absent both when there are no analyses and
when all scores in the window are 0). -/
theorem insights_order_and_presence (today : Int) (hl : List InsHabitLog)
    (sl : List InsSched) (an : List InsAnalysis) :
    ((getUserInsights today hl sl an).map Insight.title).Sublist
        ["Habit Completion Rate", "Schedule Follow-through", "Weekly Average Score"] ∧
    ((∃ i ∈ getUserInsights today hl sl an, i.title = "Habit Completion Rate") ↔
        windowHabitLogs today hl ≠ []) ∧
    ((∃ i ∈ getUserInsights today hl sl an, i.title = "Schedule Follow-through") ↔
        windowSched today sl ≠ []) ∧
    ((∃ i ∈ getUserInsights today hl sl an, i.title = "Weekly Average Score") ↔
        0 < avgScore (windowAnalyses today an)) := by
  have hg : getUserInsights today hl sl an =
      computeInsights (windowHabitLogs today hl) (windowSched today sl)
        (windowAnalyses today an) := rfl
  rw [hg]
  unfold computeInsights
  by_cases h1 : 0 < (windowHabitLogs today hl).length <;>
    by_cases h2 : 0 < (windowSched today sl).length <;>
    by_cases h3 : 0 < avgScore (windowAnalyses today an) <;>
    simp only [h1, h2, h3, if_pos, if_neg, if_true, if_false, not_false_eq_true,
      not_true_eq_false, ite_true, ite_false, gt_iff_lt] <;>
    simp [← List.length_pos, h1, h2, h3]

/-- C3 witness: the order-and-presence statement instantiated at empty
collections, where all three insights are absent. -/
theorem insights_order_and_presence_witness :
    ((getUserInsights (daysFromCivil 2025 7 15) [] [] []).map Insight.title).Sublist
        ["Habit Completion Rate", "Schedule Follow-through", "Weekly Average Score"] ∧
    ((∃ i ∈ getUserInsights (daysFromCivil 2025 7 15) [] [] [],
        i.title = "Habit Completion Rate") ↔
      windowHabitLogs (daysFromCivil 2025 7 15) [] ≠ []) ∧
    ((∃ i ∈ getUserInsights (daysFromCivil 2025 7 15) [] [] [],
        i.title = "Schedule Follow-through") ↔
      windowSched (daysFromCivil 2025 7 15) [] ≠ []) ∧
    ((∃ i ∈ getUserInsights (daysFromCivil 2025 7 15) [] [] [],
        i.title = "Weekly Average Score") ↔
      0 < avgScore (windowAnalyses (daysFromCivil 2025 7 15) [])) :=
  insights_order_and_presence (daysFromCivil 2025 7 15) [] [] []

/-- Helper: evaluation of the spec's §8 scenario — 10 habit logs (7 done) and
5 schedule items (5 done), no analyses — to two pattern insights. -/
theorem scenario_insights :
    getUserInsights (daysFromCivil 2025 7 15) scenarioHabitLogs scenarioSched [] =
      [Insight.mk "pattern" "Habit Completion Rate" 70,
       Insight.mk "pattern" "Schedule Follow-through" 100] := by
  have h1 : dateGe "2025-07-15" (formatDate (daysFromCivil 2025 7 15 - 7)) = true := by decide
  norm_num [getUserInsights, computeInsights, windowHabitLogs, windowSched, windowAnalyses,
    avgScore, weekAgo, scenarioHabitLogs, scenarioSched, h1]

/-- C5: an emitted habit insight has type `pattern` and value
`100 × completed / total` over the window; an emitted score insight's value is
the window average of `overall_score`, typed `achievement` when the average is
at least 70 and `warning` otherwise; and the spec's scenario (10 habit logs
with 7 completed, 5 schedule items all completed, no analyses) yields exactly
the two insights valued 70 and 100 with no score insight. -/
theorem insight_values (today : Int) (hl : List InsHabitLog) (sl : List InsSched)
    (an : List InsAnalysis) (i : Insight) (hi : i ∈ getUserInsights today hl sl an) :
    ((i.title = "Habit Completion Rate" →
        i.type = "pattern" ∧
        i.value = 100 * (((windowHabitLogs today hl).filter fun h => h.completed).length : ℚ) /
            ((windowHabitLogs today hl).length : ℚ)) ∧
      (i.title = "Weekly Average Score" →
        i.value = avgScore (windowAnalyses today an) ∧
        i.type = if avgScore (windowAnalyses today an) ≥ 70 then "achievement" else "warning")) ∧
    getUserInsights (daysFromCivil 2025 7 15) scenarioHabitLogs scenarioSched [] =
      [Insight.mk "pattern" "Habit Completion Rate" 70,
       Insight.mk "pattern" "Schedule Follow-through" 100] := by
  refine ⟨?_, scenario_insights⟩
  have hg : getUserInsights today hl sl an =
      computeInsights (windowHabitLogs today hl) (windowSched today sl)
        (windowAnalyses today an) := rfl
  rw [hg] at hi
  unfold computeInsights at hi
  simp only [List.mem_append] at hi
  rcases hi with (hi | hi) | hi
  · by_cases hc : (windowHabitLogs today hl).length > 0
    · rw [if_pos hc] at hi
      rw [List.mem_singleton.mp hi]
      exact ⟨fun _ => ⟨rfl, by ring⟩, fun ht => absurd ht (by simp)⟩
    · rw [if_neg hc] at hi
      exact absurd hi (List.not_mem_nil _)
  · by_cases hc : (windowSched today sl).length > 0
    · rw [if_pos hc] at hi
      rw [List.mem_singleton.mp hi]
      exact ⟨fun ht => absurd ht (by simp), fun ht => absurd ht (by simp)⟩
    · rw [if_neg hc] at hi
      exact absurd hi (List.not_mem_nil _)
  · by_cases hc : 0 < avgScore (windowAnalyses today an)
    · rw [if_pos hc] at hi
      rw [List.mem_singleton.mp hi]
      exact ⟨fun ht => absurd ht (by simp), fun _ => ⟨rfl, rfl⟩⟩
    · rw [if_neg hc] at hi
      exact absurd hi (List.not_mem_nil _)

/-- C5 witness: in the scenario, the emitted habit insight has type `pattern`
and value `100 × 7 / 10`. -/
theorem insight_values_witness :
    (Insight.mk "pattern" "Habit Completion Rate" 70).type = "pattern" ∧
      (Insight.mk "pattern" "Habit Completion Rate" 70).value =
        100 * (((windowHabitLogs (daysFromCivil 2025 7 15) scenarioHabitLogs).filter
            fun h => h.completed).length : ℚ) /
          ((windowHabitLogs (daysFromCivil 2025 7 15) scenarioHabitLogs).length : ℚ) :=
  ((insight_values (daysFromCivil 2025 7 15) scenarioHabitLogs scenarioSched []
      (Insight.mk "pattern" "Habit Completion Rate" 70)
      (by rw [scenario_insights]; exact List.mem_cons_self _ _)).1).1 rfl

/-- Helper: rewriting one element keeps the list length. -/
theorem updateFirst_length {α : Type} (p : α → Bool) (f : α → α) :
    ∀ l : List α, (updateFirst p f l).length = l.length := by
  intro l
  induction l with
  | nil => rfl
  | cons x xs ih =>
    simp only [updateFirst]
    split <;> simp [ih]

/-- Helper: rewriting one element with a function that preserves a projection
keeps the projected list. -/
theorem map_updateFirst {α β : Type} (g : α → β) (p : α → Bool) (f : α → α)
    (hf : ∀ x, g (f x) = g x) :
    ∀ l : List α, (updateFirst p f l).map g = l.map g := by
  intro l
  induction l with
  | nil => rfl
  | cons x xs ih =>
    simp only [updateFirst]
    split <;> simp [ih, hf]

/-- Helper: rewriting one element relates the old and new lists pointwise by
any relation satisfied both by unchanged and by rewritten elements. -/
theorem forall₂_updateFirst {α : Type} (R : α → α → Prop) (p : α → Bool) (f : α → α)
    (hrefl : ∀ x, R x x) (hf : ∀ x, R x (f x)) :
    ∀ l : List α, List.Forall₂ R l (updateFirst p f l) := by
  intro l
  induction l with
  | nil => exact List.Forall₂.nil
  | cons x xs ih =>
    simp only [updateFirst]
    split
    · exact List.Forall₂.cons (hf x) (List.forall₂_same.mpr fun y _ => hrefl y)
    · exact List.Forall₂.cons (hrefl x) ih

/-- Helper: the `$inc: points 5` update raises the total points by exactly 5
when a user with the given id is present. -/
theorem sum_updateFirst_bump (uid : String) :
    ∀ us : List UserRec, (∃ u ∈ us, u.id = uid) →
      ((updateFirst (fun u => u.id == uid) (fun u => { u with points := u.points + 5 })
          us).map UserRec.points).sum = (us.map UserRec.points).sum + 5 := by
  intro us
  induction us with
  | nil =>
    rintro ⟨u, hu, -⟩
    exact absurd hu (List.not_mem_nil _)
  | cons x xs ih =>
    rintro ⟨u, hu, hid⟩
    simp only [updateFirst]
    by_cases hx : (x.id == uid) = true
    · rw [if_pos hx]
      simp only [List.map_cons, List.sum_cons]
      ring
    · rw [if_neg hx]
      have hxs : ∃ u ∈ xs, u.id = uid := by
        rcases List.mem_cons.mp hu with rfl | hmem
        · exact absurd (beq_iff_eq.mpr hid) hx
        · exact ⟨u, hmem, hid⟩
      simp only [List.map_cons, List.sum_cons, ih hxs]
      ring

/-- C7: `log_habit` preserves the at-most-one-log-per-(user_id, habit_name,
date) invariant — a repeat submission for an existing triple rewrites that
record in place (same length, same triples), while a new triple inserts
exactly one record. -/
theorem logHabit_unique_triple (db : Store) (h : HabitLogCreate) (newId : String) (now : Nat)
    (hinv : UniqueTriple db.habit_logs) :
    UniqueTriple (logHabit db h newId now).habit_logs ∧
    (logHabit db h newId now).habit_logs.length =
      (if (db.habit_logs.find? (tripleMatch h)).isSome then db.habit_logs.length
        else db.habit_logs.length + 1) ∧
    ((db.habit_logs.find? (tripleMatch h)).isSome = true →
      (logHabit db h newId now).habit_logs.map logKey = db.habit_logs.map logKey) := by
  cases hfind : db.habit_logs.find? (tripleMatch h) with
  | some e =>
    have hmap : (updateFirst (fun r => r.id == e.id)
        (fun r => { r with completed := h.completed, notes := h.notes })
          db.habit_logs).map logKey = db.habit_logs.map logKey :=
      map_updateFirst logKey (fun r => r.id == e.id)
        (fun r => { r with completed := h.completed, notes := h.notes })
        (fun x => rfl) db.habit_logs
    simp only [logHabit, hfind, Option.isSome_some, if_true]
    exact ⟨by unfold UniqueTriple; rw [hmap]; exact hinv,
      updateFirst_length _ _ db.habit_logs, fun _ => hmap⟩
  | none =>
    simp only [logHabit, hfind, Option.isSome_none, Bool.false_eq_true, if_false]
    refine ⟨?_, by simp, fun hs => by simp at hs⟩
    unfold UniqueTriple
    rw [List.map_append]
    refine List.Nodup.append hinv (List.nodup_singleton _) ?_
    intro k hk1 hk2
    obtain ⟨r, hr, hkr⟩ := List.mem_map.mp hk1
    have hk : k = logKey
        (⟨newId, h.user_id, h.habit_name, h.habit_type, h.completed, h.date, h.notes, now⟩ :
          HabitLogRec) := by
      simpa using hk2
    have hfields : r.user_id = h.user_id ∧ r.habit_name = h.habit_name ∧ r.date = h.date := by
      have := hkr.trans hk
      simpa [logKey, Prod.ext_iff] using this
    have hmatch : tripleMatch h r = true := by
      simp [tripleMatch, hfields.1, hfields.2.1, hfields.2.2]
    exact absurd hmatch (List.find?_eq_none.mp hfind r hr)

/-- C7 witness: logging the sample triple again keeps the invariant on the
concrete one-record store. -/
theorem logHabit_unique_triple_witness :
    UniqueTriple (logHabit sampleStore sampleUpdate "log2" 1).habit_logs :=
  (logHabit_unique_triple sampleStore sampleUpdate "log2" 1
    (by unfold UniqueTriple; decide)).1

/-- C9: on the update path `log_habit` leaves the users collection (hence the
points counter) untouched and changes nothing in any habit log except the
matched record's `completed` and `notes`; on the insert path the users are
untouched for an uncompleted log and the 5-point increment happens exactly
for a new completed log of an existing user. -/
theorem logHabit_update_frame (db : Store) (h : HabitLogCreate) (newId : String) (now : Nat) :
    ((db.habit_logs.find? (tripleMatch h)).isSome = true →
      (logHabit db h newId now).users = db.users ∧
      List.Forall₂ frameEq db.habit_logs (logHabit db h newId now).habit_logs) ∧
    (db.habit_logs.find? (tripleMatch h) = none → h.completed = false →
      (logHabit db h newId now).users = db.users) ∧
    (db.habit_logs.find? (tripleMatch h) = none → h.completed = true →
      (∃ u ∈ db.users, u.id = h.user_id) →
      ((logHabit db h newId now).users.map UserRec.points).sum =
        (db.users.map UserRec.points).sum + 5) := by
  cases hfind : db.habit_logs.find? (tripleMatch h) with
  | some e =>
    have hL : logHabit db h newId now =
        Store.mk (updateFirst (fun r => r.id == e.id)
          (fun r => { r with completed := h.completed, notes := h.notes }) db.habit_logs)
          db.users := by
      simp only [logHabit, hfind]
    rw [hL]
    exact ⟨fun _ => ⟨rfl,
        forall₂_updateFirst frameEq (fun r => r.id == e.id)
          (fun r => { r with completed := h.completed, notes := h.notes })
          (fun x => ⟨rfl, rfl, rfl, rfl, rfl, rfl⟩)
          (fun x => ⟨rfl, rfl, rfl, rfl, rfl, rfl⟩) db.habit_logs⟩,
      fun hn => Option.noConfusion hn, fun hn => Option.noConfusion hn⟩
  | none =>
    have hL : logHabit db h newId now =
        Store.mk (db.habit_logs ++
            [⟨newId, h.user_id, h.habit_name, h.habit_type, h.completed, h.date, h.notes, now⟩])
          (if h.completed then
              updateFirst (fun u => u.id == h.user_id)
                (fun u => { u with points := u.points + 5 }) db.users
            else db.users) := by
      simp only [logHabit, hfind]
    refine ⟨fun hs => by simp at hs,
      fun _ hc => by rw [hL]; simp [hc],
      fun _ hc hex => ?_⟩
    rw [hL]
    simp only [hc, if_true]
    exact sum_updateFirst_bump h.user_id db.users hex

/-- C9 witness: re-logging the sample triple leaves the users untouched and
relates old and new logs by the frame relation. -/
theorem logHabit_update_frame_witness :
    (logHabit sampleStore sampleUpdate "log2" 1).users = sampleStore.users ∧
      List.Forall₂ frameEq sampleStore.habit_logs
        (logHabit sampleStore sampleUpdate "log2" 1).habit_logs :=
  (logHabit_update_frame sampleStore sampleUpdate "log2" 1).1 (by decide)

/-- C2 witness: the window-membership statement instantiated at the concrete
anchor 2025-07-15 with singleton collections dated on the anchor day. -/
theorem window_membership_witness :
    (InsHabitLog.mk "2025-07-15" true ∈
        windowHabitLogs (daysFromCivil 2025 7 15) [InsHabitLog.mk "2025-07-15" true] ↔
      InsHabitLog.mk "2025-07-15" true ∈ [InsHabitLog.mk "2025-07-15" true] ∧
        dateGe "2025-07-15" (formatDate (daysFromCivil 2025 7 15 - 7)) = true) ∧
    (InsSched.mk "2025-07-15" true ∈
        windowSched (daysFromCivil 2025 7 15) [InsSched.mk "2025-07-15" true] ↔
      InsSched.mk "2025-07-15" true ∈ [InsSched.mk "2025-07-15" true] ∧
        dateGe "2025-07-15" (formatDate (daysFromCivil 2025 7 15 - 7)) = true) ∧
    (InsAnalysis.mk "2025-07-15" 80 ∈
        windowAnalyses (daysFromCivil 2025 7 15) [InsAnalysis.mk "2025-07-15" 80] ↔
      InsAnalysis.mk "2025-07-15" 80 ∈ [InsAnalysis.mk "2025-07-15" 80] ∧
        dateGe "2025-07-15" (formatDate (daysFromCivil 2025 7 15 - 7)) = true) ∧
    getUserInsights (daysFromCivil 2025 7 15) [InsHabitLog.mk "2025-07-15" true]
        [InsSched.mk "2025-07-15" true] [InsAnalysis.mk "2025-07-15" 80] =
      computeInsights
        (windowHabitLogs (daysFromCivil 2025 7 15) [InsHabitLog.mk "2025-07-15" true])
        (windowSched (daysFromCivil 2025 7 15) [InsSched.mk "2025-07-15" true])
        (windowAnalyses (daysFromCivil 2025 7 15) [InsAnalysis.mk "2025-07-15" 80]) ∧
    dateGe "2025-07-08" (formatDate (daysFromCivil 2025 7 15 - 7)) = true ∧
    dateGe "2025-07-07" (formatDate (daysFromCivil 2025 7 15 - 7)) = false :=
  window_membership (daysFromCivil 2025 7 15) [InsHabitLog.mk "2025-07-15" true]
    [InsSched.mk "2025-07-15" true] [InsAnalysis.mk "2025-07-15" 80]
    (InsHabitLog.mk "2025-07-15" true) (InsSched.mk "2025-07-15" true)
    (InsAnalysis.mk "2025-07-15" 80)
